import Mathlib

/-!
# Finch UI — verification of the geometry resolver, flex layout and input routing

Shallow embedding of the `components` package of the finch repository
(`node.go`, `containers.go`, `controls.go`) and of the reactive `State`
cell listed in the repository README.  Go `int` values are modelled as
`Int`; structs become Lean structures; methods become pure functions or
explicit state-passing functions.  Element identity (Go interface
pointer equality) is modelled by a `Nat` identifier where a claim needs
it.
-/

namespace Finch

/-- `Rect` from `components` (part_006 / interface file): position and size. -/
structure Rect where
  x : Int
  y : Int
  width : Int
  height : Int
  deriving Repr, DecidableEq

/-- `Point` from `components`. -/
structure Point where
  x : Int
  y : Int
  deriving Repr, DecidableEq

/-- `Spacing` from `components`: top/right/bottom/left values. -/
structure Spacing where
  top : Int
  right : Int
  bottom : Int
  left : Int
  deriving Repr, DecidableEq

/-- The all-zero spacing, the Go zero value of `Spacing`. -/
def Spacing.zero : Spacing := ⟨0, 0, 0, 0⟩

/-- `BoxModel` from `components`.  The border is not consulted by
`ComputedBounds` or `updateLayout`, so only margin and padding are kept. -/
structure BoxModel where
  margin : Spacing
  padding : Spacing
  deriving Repr, DecidableEq

/-- The Go zero value of `BoxModel` (used by `NewNode`). -/
def BoxModel.zero : BoxModel := ⟨Spacing.zero, Spacing.zero⟩

/-- `PositionType` from `components`. -/
inductive PositionType where
  | relative
  | absolute
  | fixed
  deriving Repr, DecidableEq

/-- `FlexDirection` from `components`. -/
inductive FlexDirection where
  | row
  | column
  deriving Repr, DecidableEq

/-- `Alignment` from `components`. -/
inductive Alignment where
  | start
  | center
  | «end»
  | stretch
  deriving Repr, DecidableEq

/-- `PointInRect` from the `components` interface file:
`p.X >= r.X && p.X < r.X+r.Width && p.Y >= r.Y && p.Y < r.Y+r.Height`. -/
def pointInRect (p : Point) (r : Rect) : Bool :=
  decide (r.x ≤ p.x) && decide (p.x < r.x + r.width) &&
  decide (r.y ≤ p.y) && decide (p.y < r.y + r.height)

/-- The fields of a `Node` (node.go) that `ComputedBounds` reads:
its local bounds (`d.Bounds()`, set by `SetBounds`), its position type,
its box model and its relative position (`d.relativePos`, set by
`SetRelativePosition`). -/
structure NodeFields where
  bounds : Rect
  positionType : PositionType
  boxModel : BoxModel
  relativePos : Point
  deriving Repr, DecidableEq

/-- The ancestor chain of a node, as walked by `Node.ComputedBounds`:
either there is no parent (`root`), the parent is an `Element` that is
not a `NodeElement` (`plain`, only its `Bounds()` are consulted), or the
parent is itself a `NodeElement` with its own fields and chain (`cons`). -/
inductive Chain where
  | root : Chain
  | plain : Rect → Chain
  | cons : NodeFields → Chain → Chain
  deriving Repr, DecidableEq

/-- `Node.ComputedBounds` (node.go lines 109–152), translated
statement by statement.  Start from the element's own bounds; if the
position type is not fixed and a parent exists, resolve the parent's
bounds (for a `NodeElement` parent: its own `ComputedBounds` shrunk by
its padding; otherwise the parent's raw bounds) and overwrite x/y with
parent x/y plus `relativePos`; finally add this element's own margin to
x and y only. -/
def computedBounds (f : NodeFields) (c : Chain) : Rect :=
  let bounds := f.bounds
  let bounds :=
    if f.positionType ≠ PositionType.fixed then
      match c with
      | Chain.root => bounds
      | Chain.plain pb =>
          if f.positionType = PositionType.relative then
            { bounds with x := pb.x + f.relativePos.x, y := pb.y + f.relativePos.y }
          else if f.positionType = PositionType.absolute then
            { bounds with x := pb.x + f.relativePos.x, y := pb.y + f.relativePos.y }
          else bounds
      | Chain.cons pf pc =>
          let pb0 := computedBounds pf pc
          let pb : Rect :=
            { x := pb0.x + pf.boxModel.padding.left
              y := pb0.y + pf.boxModel.padding.top
              width := pb0.width - (pf.boxModel.padding.left + pf.boxModel.padding.right)
              height := pb0.height - (pf.boxModel.padding.top + pf.boxModel.padding.bottom) }
          if f.positionType = PositionType.relative then
            { bounds with x := pb.x + f.relativePos.x, y := pb.y + f.relativePos.y }
          else if f.positionType = PositionType.absolute then
            { bounds with x := pb.x + f.relativePos.x, y := pb.y + f.relativePos.y }
          else bounds
    else bounds
  { bounds with
      x := bounds.x + f.boxModel.margin.left
      y := bounds.y + f.boxModel.margin.top }

/-- `Node.ComputedBounds` as a state-passing operation on the element
state it can see.  The Go method body (node.go lines 109–152) contains
only reads of element fields (`d.Bounds()`, `d.positionType`,
`d.Parent()`, the parent's `ComputedBounds`, `GetBoxModel` and
`d.boxModel`, `d.relativePos`) and writes only to the local variable
`bounds`; it never assigns to any field of `d` or of an ancestor, so its
effect on element state is the identity. -/
def computedBoundsS (s : NodeFields × Chain) : Rect × (NodeFields × Chain) :=
  (computedBounds s.1 s.2, s)

/-! ## FlexContainer (containers.go) -/

/-- A direct child of a `FlexContainer` as seen by `updateLayout`: the
layout pass reads each child's `Bounds()` and writes them back via
`SetBounds`.  `id` models Go interface identity (used by `RemoveChild`'s
`c == child` comparison). -/
structure Child where
  id : Nat
  bounds : Rect
  deriving Repr, DecidableEq

/-- The state of a `FlexContainer` (containers.go): its embedded `Node`
fields and ancestor chain (for `ComputedBounds`/`GetBoxModel`), its own
`flexDirection`, `alignItems` and `spacing` fields, and its children.
`justifyContent` and `backgroundColor` are never read by layout or
routing and are omitted. -/
structure FlexContainerState where
  fields : NodeFields
  chain : Chain
  flexDirection : FlexDirection
  alignItems : Alignment
  spacing : Int
  children : List Child
  deriving Repr, DecidableEq

/-- The row branch of `FlexContainer.updateLayout` (containers.go lines
149–175): a cursor `x` starts at the content box's x; each child in
insertion order gets bounds `{x, y, originalWidth, resolvedHeight}`
where y and the resolved height come from `alignItems`, and the cursor
advances by the child's width plus the spacing. -/
def rowPass (x contentY contentHeight : Int) (align : Alignment) (spacing : Int) :
    List Child → List Child
  | [] => []
  | ch :: rest =>
      let cb := ch.bounds
      let childHeight := match align with
        | Alignment.stretch => contentHeight
        | _ => cb.height
      let y : Int := match align with
        | Alignment.start => contentY
        | Alignment.center => contentY + Int.tdiv (contentHeight - cb.height) 2
        | Alignment.end => contentY + contentHeight - cb.height
        | Alignment.stretch => contentY
      { ch with bounds := { x := x, y := y, width := cb.width, height := childHeight } } ::
        rowPass (x + cb.width + spacing) contentY contentHeight align spacing rest

/-- The column branch of `FlexContainer.updateLayout` (containers.go
lines 176–203): a cursor `y` starts at the content box's y; each child
gets `{x, y, resolvedWidth, originalHeight}` and the cursor advances by
the child's height plus the spacing. -/
def colPass (contentX y contentWidth : Int) (align : Alignment) (spacing : Int) :
    List Child → List Child
  | [] => []
  | ch :: rest =>
      let cb := ch.bounds
      let childWidth := match align with
        | Alignment.stretch => contentWidth
        | _ => cb.width
      let x : Int := match align with
        | Alignment.start => contentX
        | Alignment.center => contentX + Int.tdiv (contentWidth - cb.width) 2
        | Alignment.end => contentX + contentWidth - cb.width
        | Alignment.stretch => contentX
      { ch with bounds := { x := x, y := y, width := childWidth, height := cb.height } } ::
        colPass contentX (y + cb.height + spacing) contentWidth align spacing rest

/-- `FlexContainer.updateLayout` (containers.go lines 134–204): return
unchanged if there are no children; otherwise compute the container's
content box from its `ComputedBounds` shrunk by its own padding, and run
the row or column pass over the children. -/
def updateLayout (f : FlexContainerState) : FlexContainerState :=
  if f.children.isEmpty then f
  else
    let bounds := computedBounds f.fields f.chain
    let pad := f.fields.boxModel.padding
    let contentX := bounds.x + pad.left
    let contentY := bounds.y + pad.top
    let contentWidth := bounds.width - pad.left - pad.right
    let contentHeight := bounds.height - pad.top - pad.bottom
    if f.flexDirection = FlexDirection.row then
      { f with children :=
          rowPass contentX contentY contentHeight f.alignItems f.spacing f.children }
    else
      { f with children :=
          colPass contentX contentY contentWidth f.alignItems f.spacing f.children }

/-- `BaseElement.RemoveChild`'s children-list effect (controls.go lines
367–374): remove the first child equal (by identity) to the argument. -/
def removeFirstChild : List Child → Nat → List Child
  | [], _ => []
  | c :: cs, i => if c.id = i then cs else c :: removeFirstChild cs i

/-- `FlexContainer.AddChild` (containers.go lines 122–125): append the
child (via `Node.AddChild`, which appends to the children slice) and run
`updateLayout`. -/
def fcAddChild (f : FlexContainerState) (c : Child) : FlexContainerState :=
  updateLayout { f with children := f.children ++ [c] }

/-- `FlexContainer.RemoveChild` (containers.go lines 128–131): remove
the first identity match (via `Node.RemoveChild`) and run
`updateLayout`. -/
def fcRemoveChild (f : FlexContainerState) (i : Nat) : FlexContainerState :=
  updateLayout { f with children := removeFirstChild f.children i }

/-- `FlexContainer.SetSpacing` (containers.go lines 116–119): set the
spacing and run `updateLayout`. -/
def fcSetSpacing (f : FlexContainerState) (s : Int) : FlexContainerState :=
  updateLayout { f with spacing := s }

/-! ## Mouse-event dispatch to children

The handlers of a container's children are modelled as pure responder
functions `Point → Bool` (each child answers whether it handles the
event at that point); the model records, as a list of insertion indices,
which children the loop actually invokes. -/

/-- The loop `for i := len(children)-1; i >= 0; i--` of
`FlexContainer.HandleMouseDown` (containers.go lines 76–81).
`loopDown hs p (i+1)` processes index `i`: if that child handles the
event the loop returns true having invoked only that child; otherwise it
records the invocation and continues downward. -/
def loopDown (hs : List (Point → Bool)) (p : Point) : Nat → Bool × List Nat
  | 0 => (false, [])
  | i + 1 =>
      match hs.get? i with
      | some h =>
          if h p then (true, [i])
          else
            let r := loopDown hs p i
            (r.1, i :: r.2)
      | none => loopDown hs p i

/-- `FlexContainer.HandleMouseDown` (containers.go lines 72–87): if the
point is inside the container's computed bounds, dispatch to the
children in reverse insertion order, stopping at the first child that
handles the event; the container returns true whether or not a child
handled it.  Outside the bounds nothing is dispatched and the result is
false.  The second component is the list of child indices invoked, in
invocation order. -/
def fcHandleMouseDown (bounds : Rect) (hs : List (Point → Bool)) (p : Point) :
    Bool × List Nat :=
  if pointInRect p bounds then (true, (loopDown hs p hs.length).2)
  else (false, [])

/-- The short-circuit `for i := len-1 .. 0 { if child.Handle... { return true } }`
pattern used inside `Button`/`BaseElement` handlers, reduced to its
boolean result (whether some child handled the event). -/
def anyChildHandles (hs : List (Point → Bool)) (p : Point) : Bool :=
  (loopDown hs p hs.length).1

/-! ## Button (controls.go) -/

/-- The state of a `Button` (controls.go lines 8–20) relevant to mouse
handling: its `Node` fields and chain, the `hovered`/`pressed`/`disabled`
flags, whether an `onClick` callback is registered, and a counter of
callback invocations (the observable effect of calling `b.onClick()`).
Children are modelled as responder functions. -/
structure ButtonState where
  fields : NodeFields
  chain : Chain
  hovered : Bool
  pressed : Bool
  disabled : Bool
  hasOnClick : Bool
  clickCount : Nat
  children : List (Point → Bool)

/-- `Button.HandleMouseDown` (controls.go lines 125–145): a disabled
button ignores the event; inside the computed bounds the pressed flag is
set and the children are tried in reverse order, but the result is true
whether or not a child handled it; outside the bounds nothing changes
and the result is false. -/
def buttonHandleMouseDown (b : ButtonState) (p : Point) : Bool × ButtonState :=
  if b.disabled then (false, b)
  else
    let bounds := computedBounds b.fields b.chain
    if pointInRect p bounds then
      let b1 := { b with pressed := true }
      if anyChildHandles b1.children p then (true, b1) else (true, b1)
    else (false, b)

/-- `Button.HandleMouseUp` (controls.go lines 148–175): the pressed flag
is cleared unconditionally; a disabled button then returns false.  If
the button was pressed and the point is inside its computed bounds the
`onClick` callback (when registered) runs and the result is true;
otherwise the children are tried in reverse order and the result is
whether one of them handled the event. -/
def buttonHandleMouseUp (b : ButtonState) (p : Point) : Bool × ButtonState :=
  let wasPressed := b.pressed
  let b1 := { b with pressed := false }
  if b.disabled then (false, b1)
  else
    let bounds := computedBounds b1.fields b1.chain
    if wasPressed && pointInRect p bounds then
      let b2 := if b1.hasOnClick then { b1 with clickCount := b1.clickCount + 1 } else b1
      (true, b2)
    else if anyChildHandles b1.children p then (true, b1)
    else (false, b1)

/-- `Button.HandleMouseMove` (controls.go lines 178–192): recompute the
hovered flag from the computed bounds; if a child handles the event the
result is true; otherwise the result is `hovered || (wasHovered != hovered)`. -/
def buttonHandleMouseMove (b : ButtonState) (p : Point) : Bool × ButtonState :=
  let wasHovered := b.hovered
  let bounds := computedBounds b.fields b.chain
  let hoveredNow := pointInRect p bounds
  let b1 := { b with hovered := hoveredNow }
  if anyChildHandles b1.children p then (true, b1)
  else ((hoveredNow || (wasHovered != hoveredNow) : Bool), b1)

/-! ## BaseElement (controls.go) -/

/-- The state of a `BaseElement` (controls.go lines 303–310) relevant to
mouse-move routing: its local bounds (`IsMouseOver` tests `b.bounds`
directly), the `mouseOver` flag, and its children as responders. -/
structure BaseElementState where
  bounds : Rect
  mouseOver : Bool
  children : List (Point → Bool)

/-- `BaseElement.HandleMouseMove` (controls.go lines 441–462): recompute
`mouseOver` via point-in-rect on the element's own bounds; if a child
handles the event the result is true; otherwise the result is the new
`mouseOver` flag alone (NOT `mouseOver || wasOver`). -/
def baseHandleMouseMove (e : BaseElementState) (p : Point) : Bool × BaseElementState :=
  let over := pointInRect p e.bounds
  let e1 := { e with mouseOver := over }
  if anyChildHandles e1.children p then (true, e1)
  else (over, e1)

/-- `BaseElement.AddChild`'s effect on the children sequence
(controls.go lines 360–364): append the new child.  Children are
identified by Go interface identity, modelled as `Nat`. -/
def baseAddChild (children : List Nat) (c : Nat) : List Nat :=
  children ++ [c]

/-- `BaseElement.RemoveChild`'s effect on the children sequence
(controls.go lines 367–374): remove the first child identical to the
argument (the loop breaks after the first match). -/
def baseRemoveChild : List Nat → Nat → List Nat
  | [], _ => []
  | x :: xs, c => if x = c then xs else x :: baseRemoveChild xs c

/-! ## Checkbox (controls.go) -/

/-- The state of a `Checkbox` (controls.go lines 210–214): its `Node`
fields and chain, the checked flag, whether a `checkedChanged` handler
is registered, and the list of values the handler has been called with
(the observable effect of `c.checkedChanged(c.checked)`). -/
structure CheckboxState where
  fields : NodeFields
  chain : Chain
  checked : Bool
  hasHandler : Bool
  notified : List Bool
  deriving Repr, DecidableEq

/-- `Checkbox.HandleMouseDown` (controls.go lines 277–291): inside the
computed bounds the checked state toggles immediately, the
`checkedChanged` handler (when registered) receives the new value, and
the result is true; outside the bounds nothing changes and the result is
false. -/
def checkboxHandleMouseDown (c : CheckboxState) (p : Point) : Bool × CheckboxState :=
  let bounds := computedBounds c.fields c.chain
  if pointInRect p bounds then
    let c1 := { c with checked := !c.checked }
    let c2 := if c1.hasHandler then { c1 with notified := c1.notified ++ [c1.checked] } else c1
    (true, c2)
  else (false, c)

/-! ## Reactive State cell

The `State` struct and its methods are given in the repository README
(src/README.md lines 564–593); the `finch` package constructs the same
struct (`UI.State` in finch/ui.go).  Watchers are effectful functions;
they are modelled by subscription-ordered identifiers, and each call
produces the trace of `(watcher, value)` invocations it performs. -/

/-- The `State` struct from the README listing: the current value and
the registered watchers in subscription order. -/
structure StateCell where
  value : Int
  watchers : List Nat
  deriving Repr, DecidableEq

/-- `State.Update` (README lines 572–580): compute the new value from
the transform, store it, and notify every registered watcher with the
stored value, in order.  Returns the updated cell and the invocation
trace. -/
def stateUpdate (s : StateCell) (transform : Int → Int) :
    StateCell × List (Nat × Int) :=
  let newValue := transform s.value
  let s1 := { s with value := newValue }
  (s1, s1.watchers.map fun w => (w, s1.value))

/-- `State.Watch` (README lines 583–588): append the watcher and call it
immediately with the current value. -/
def stateWatch (s : StateCell) (w : Nat) : StateCell × List (Nat × Int) :=
  let s1 := { s with watchers := s.watchers ++ [w] }
  (s1, [(w, s1.value)])

/-! ## Concrete instances used in the theorems below -/

/-- A node with default box model and position whose local bounds were
set to x = 50 by `SetBounds`, with the default relative position (0,0)
from `NewNode`. -/
def exC1child : NodeFields :=
  { bounds := ⟨50, 60, 30, 20⟩
    positionType := PositionType.relative
    boxModel := BoxModel.zero
    relativePos := ⟨0, 0⟩ }

/-- A parentless node at the origin serving as `NodeElement` parent. -/
def exC1parent : NodeFields :=
  { bounds := ⟨0, 0, 200, 200⟩
    positionType := PositionType.relative
    boxModel := BoxModel.zero
    relativePos := ⟨0, 0⟩ }

/-- A node with relative position (7,8), margin-left 3 / margin-top 4. -/
def wC1child : NodeFields :=
  { bounds := ⟨0, 0, 30, 20⟩
    positionType := PositionType.relative
    boxModel := { margin := ⟨4, 0, 0, 3⟩, padding := Spacing.zero }
    relativePos := ⟨7, 8⟩ }

/-- A parent node with padding-left 5 / padding-top 6. -/
def wC1parent : NodeFields :=
  { bounds := ⟨10, 20, 200, 200⟩
    positionType := PositionType.relative
    boxModel := { margin := Spacing.zero, padding := ⟨6, 0, 0, 5⟩ }
    relativePos := ⟨0, 0⟩ }

/-- The button of the C3 scenario: screen rect (100,100)-(200,150), no
parent, default box model, a registered click callback, not disabled. -/
def btn0 : ButtonState :=
  { fields :=
      { bounds := ⟨100, 100, 100, 50⟩
        positionType := PositionType.relative
        boxModel := BoxModel.zero
        relativePos := ⟨0, 0⟩ }
    chain := Chain.root
    hovered := false
    pressed := false
    disabled := false
    hasOnClick := true
    clickCount := 0
    children := [] }

/-- The button state after `HandleMouseDown(150,125)` on `btn0`. -/
def btn1 : ButtonState := (buttonHandleMouseDown btn0 ⟨150, 125⟩).2

/-- A childless button at screen rect (0,0)-(10,10) used for the hover
scenario. -/
def hoverBtn : ButtonState :=
  { fields :=
      { bounds := ⟨0, 0, 10, 10⟩
        positionType := PositionType.relative
        boxModel := BoxModel.zero
        relativePos := ⟨0, 0⟩ }
    chain := Chain.root
    hovered := false
    pressed := false
    disabled := false
    hasOnClick := false
    clickCount := 0
    children := [] }

/-- `hoverBtn` after a move into its bounds. -/
def hb1 : ButtonState := (buttonHandleMouseMove hoverBtn ⟨5, 5⟩).2

/-- `hb1` after a further move still inside the bounds. -/
def hb2 : ButtonState := (buttonHandleMouseMove hb1 ⟨6, 6⟩).2

/-- `hb2` after the move that leaves the bounds. -/
def hb3 : ButtonState := (buttonHandleMouseMove hb2 ⟨100, 100⟩).2

/-- A `BaseElement` with bounds (0,0)-(10,10), no children. -/
def base0 : BaseElementState :=
  { bounds := ⟨0, 0, 10, 10⟩, mouseOver := false, children := [] }

/-- `base0` after a mouse move inside its bounds: `mouseOver` is true. -/
def base1 : BaseElementState := (baseHandleMouseMove base0 ⟨5, 5⟩).2

/-- The row container of the C5 scenario: content box starting at x = 0
(bounds at the origin, no padding, no parent, no margin), spacing 10,
start alignment, children of widths 100 and 120. -/
def fcC5 : FlexContainerState :=
  { fields :=
      { bounds := ⟨0, 0, 500, 100⟩
        positionType := PositionType.relative
        boxModel := BoxModel.zero
        relativePos := ⟨0, 0⟩ }
    chain := Chain.root
    flexDirection := FlexDirection.row
    alignItems := Alignment.start
    spacing := 10
    children := [⟨0, ⟨0, 0, 100, 40⟩⟩, ⟨1, ⟨0, 0, 120, 40⟩⟩] }

/-- A container used for dispatch witnesses: bounds (0,0)-(10,10). -/
def fcC4bounds : Rect := ⟨0, 0, 10, 10⟩

/-- Three child responders: child 0 and 2 never handle the event, child
1 always does. -/
def hsC4 : List (Point → Bool) := [fun _ => false, fun _ => true, fun _ => false]

/-- A checkbox at screen rect (0,0)-(20,20), unchecked, with a
registered `checkedChanged` handler. -/
def cb0 : CheckboxState :=
  { fields :=
      { bounds := ⟨0, 0, 20, 20⟩
        positionType := PositionType.relative
        boxModel := BoxModel.zero
        relativePos := ⟨0, 0⟩ }
    chain := Chain.root
    checked := false
    hasHandler := true
    notified := [] }

/-- A state cell initialised to 0 with one registered watcher. -/
def cell0 : StateCell := { value := 0, watchers := [0] }

/-- `cell0` after one `Update(v => v+1)`. -/
def cell1 : StateCell := (stateUpdate cell0 (fun v => v + 1)).1

/-- `cell1` after another `Update(v => v+1)`. -/
def cell2 : StateCell := (stateUpdate cell1 (fun v => v + 1)).1

/-- The value a child's responder gives at a point, by insertion index
(`false` past the end of the children list). -/
def childAt (hs : List (Point → Bool)) (p : Point) (k : Nat) : Bool :=
  match hs.get? k with
  | some h => h p
  | none => false

/-! ## Theorems -/

/-- Every child index the downward dispatch loop invokes is below its
starting counter. -/
lemma loopDown_mem_lt (hs : List (Point → Bool)) (p : Point) :
    ∀ m, ∀ j ∈ (loopDown hs p m).2, j < m := by
  intro m
  induction m with
  | zero => intro j hj; simp [loopDown] at hj
  | succ n ih =>
      intro j hj
      rw [loopDown] at hj
      cases hg : hs.get? n with
      | none =>
          rw [hg] at hj
          exact Nat.lt_succ_of_lt (ih j hj)
      | some h =>
          rw [hg] at hj
          by_cases hp : h p = true
          · simp [hp] at hj
            omega
          · simp [hp] at hj
            rcases hj with rfl | hj
            · omega
            · exact Nat.lt_succ_of_lt (ih j hj)

/-- Characterisation of the downward dispatch loop: child `j` is
invoked exactly when every child with a larger index (a more recently
added sibling) answers false at the point. -/
lemma loopDown_mem_iff (hs : List (Point → Bool)) (p : Point) :
    ∀ m, m ≤ hs.length → ∀ j,
      (j ∈ (loopDown hs p m).2 ↔
        (j < m ∧ ∀ k, j < k → k < m → childAt hs p k = false)) := by
  intro m
  induction m with
  | zero => intro _ j; simp [loopDown]
  | succ n ih =>
      intro hm j
      have hn : n < hs.length := hm
      obtain ⟨h, hg⟩ : ∃ h, hs.get? n = some h := by
        cases hg : hs.get? n with
        | none =>
            exact absurd (List.get?_eq_none.mp hg) (Nat.not_le_of_lt hn)
        | some h => exact ⟨h, rfl⟩
      have hchild : childAt hs p n = h p := by
        simp only [childAt]
        rw [hg]
      rw [loopDown, hg]
      by_cases hp : h p = true
      · simp only [hp, if_true]
        constructor
        · intro hj
          simp at hj
          exact ⟨by omega, fun k hk1 hk2 => absurd hk2 (by omega)⟩
        · rintro ⟨hj, hall⟩
          have : j = n := by
            by_contra hne
            have hjn : j < n := by omega
            have hx := hall n hjn (Nat.lt_succ_self n)
            rw [hchild, hp] at hx
            exact Bool.noConfusion hx
          simp [this]
      · simp only [hp, if_false]
        have hf : h p = false := by
          revert hp; cases h p <;> simp
        constructor
        · intro hj
          simp at hj
          rcases hj with rfl | hj
          · exact ⟨Nat.lt_succ_self j, fun k hk1 hk2 => absurd hk2 (by omega)⟩
          · obtain ⟨hjn, hall⟩ := (ih (Nat.le_of_lt hn) j).mp hj
            refine ⟨Nat.lt_succ_of_lt hjn, fun k hk1 hk2 => ?_⟩
            rcases Nat.lt_or_ge k n with hk | hk
            · exact hall k hk1 hk
            · have : k = n := by omega
              rw [this, hchild]
              exact hf
        · rintro ⟨hj, hall⟩
          rcases Nat.lt_or_ge j n with hjn | hjn
          · have : j ∈ (loopDown hs p n).2 :=
              (ih (Nat.le_of_lt hn) j).mpr
                ⟨hjn, fun k hk1 hk2 => hall k hk1 (Nat.lt_succ_of_lt hk2)⟩
            simp [this]
          · have : j = n := by omega
            simp [this]

/-- The downward dispatch loop invokes children in strictly decreasing
index order (most recently added first). -/
lemma loopDown_pairwise (hs : List (Point → Bool)) (p : Point) :
    ∀ m, ((loopDown hs p m).2).Pairwise (fun a b => b < a) := by
  intro m
  induction m with
  | zero => simp [loopDown]
  | succ n ih =>
      rw [loopDown]
      cases hg : hs.get? n with
      | none => exact ih
      | some h =>
          by_cases hp : h p = true
          · simp [hp]
          · simp only [hp, if_false]
            exact List.Pairwise.cons (fun b hb => loopDown_mem_lt hs p n b hb) ih

/-- The row pass maps an empty children list to an empty one and a
non-empty list to a non-empty one. -/
lemma rowPass_isEmpty (x cy ch : Int) (a : Alignment) (s : Int) (l : List Child) :
    (rowPass x cy ch a s l).isEmpty = l.isEmpty := by
  cases l <;> rfl

/-- The column pass preserves emptiness of the children list. -/
lemma colPass_isEmpty (cx y cw : Int) (a : Alignment) (s : Int) (l : List Child) :
    (colPass cx y cw a s l).isEmpty = l.isEmpty := by
  cases l <;> rfl

/-- The row pass is idempotent: a second pass over already-placed
children reproduces the same bounds (widths are preserved, so the
cursor advances identically; heights and cross-axis positions are
stable under every alignment). -/
lemma rowPass_idem (cy ch : Int) (a : Alignment) (s : Int) :
    ∀ (l : List Child) (x : Int),
      rowPass x cy ch a s (rowPass x cy ch a s l) = rowPass x cy ch a s l := by
  intro l
  induction l with
  | nil => intro x; rfl
  | cons c0 rest ih => intro x; cases a <;> simp [rowPass, ih]

/-- The column pass is idempotent. -/
lemma colPass_idem (cx cw : Int) (a : Alignment) (s : Int) :
    ∀ (l : List Child) (y : Int),
      colPass cx y cw a s (colPass cx y cw a s l) = colPass cx y cw a s l := by
  intro l
  induction l with
  | nil => intro y; rfl
  | cons c0 rest ih => intro y; cases a <;> simp [colPass, ih]

/-- `updateLayout` is idempotent: its output is a fixed point of the
layout pass, i.e. the children of a freshly laid-out container are
exactly where the flex placement algorithm prescribes for the
container's current content box, direction, alignment and spacing. -/
lemma updateLayout_idem (f : FlexContainerState) :
    updateLayout (updateLayout f) = updateLayout f := by
  cases hemp : f.children.isEmpty
  case true =>
    have h1 : updateLayout f = f := by
      rw [updateLayout, hemp]
      simp
    rw [h1, h1]
  case false =>
    rw [updateLayout, updateLayout]
    cases hdir : f.flexDirection <;>
      simp [hemp, hdir, rowPass_isEmpty, colPass_isEmpty, rowPass_idem, colPass_idem]

/-- C2: after `AddChild`, `RemoveChild` or `SetSpacing` on a
`FlexContainer`, the container is a fixed point of the layout pass:
running `updateLayout` again changes nothing, so each direct child's
bounds already equal the position the flex placement algorithm
prescribes for the container's current content box, direction,
alignment and spacing, and no separate manual layout call is needed
before the next Draw or hit-test. -/
theorem C2_mutations_leave_laid_out (f : FlexContainerState) (c : Child) (i : Nat)
    (s : Int) :
    updateLayout (fcAddChild f c) = fcAddChild f c ∧
    updateLayout (fcRemoveChild f i) = fcRemoveChild f i ∧
    updateLayout (fcSetSpacing f s) = fcSetSpacing f s :=
  ⟨updateLayout_idem _, updateLayout_idem _, updateLayout_idem _⟩

/-- C5: in a row layout pass, the i-th child's x is the content box's x
plus the widths-plus-spacing of all earlier children (the cursor), and
its width is its original width; concretely, for the container with
children of widths 100 and 120, spacing 10 and content box starting at
x = 0, the laid-out xs are [0, 110] and the widths are kept at
[100, 120]. -/
theorem C5_row_cursor_positions (l : List Child) (x0 cy ch s : Int) (a : Alignment)
    (i : Nat) (c r : Child) (hc : l.get? i = some c)
    (hr : (rowPass x0 cy ch a s l).get? i = some r) :
    (r.bounds.x = x0 + ((l.take i).map (fun d => d.bounds.width + s)).sum ∧
     r.bounds.width = c.bounds.width) ∧
    ((updateLayout fcC5).children.map (fun d => d.bounds.x) = [0, 110] ∧
     (updateLayout fcC5).children.map (fun d => d.bounds.width) = [100, 120]) := by
  refine ⟨?_, by decide, by decide⟩
  induction l generalizing i x0 with
  | nil => simp at hc
  | cons hd tl ih =>
      cases i with
      | zero =>
          simp only [rowPass] at hr
          simp at hr hc
          constructor
          · rw [← hr]
            simp
          · rw [← hr, ← hc]
      | succ n =>
          simp only [rowPass] at hr
          simp only [List.get?_cons_succ] at hr hc
          have hih := ih (x0 + hd.bounds.width + s) n hc hr
          constructor
          · rw [hih.1]
            simp [List.take_succ_cons]
            ring
          · exact hih.2

/-- C5 witness: the cursor formula evaluated at index 1 of the concrete
two-child list. -/
theorem C5_row_cursor_positions_witness :
    (((rowPass 0 0 100 Alignment.start 10 fcC5.children).get? 1).getD ⟨0, ⟨0, 0, 0, 0⟩⟩).bounds.x
        = 0 + ((fcC5.children.take 1).map (fun d => d.bounds.width + 10)).sum ∧
    (((rowPass 0 0 100 Alignment.start 10 fcC5.children).get? 1).getD ⟨0, ⟨0, 0, 0, 0⟩⟩).bounds.width
        = 120 := by
  have h := C5_row_cursor_positions fcC5.children 0 0 100 10 Alignment.start 1
    ⟨1, ⟨0, 0, 120, 40⟩⟩
    (((rowPass 0 0 100 Alignment.start 10 fcC5.children).get? 1).getD ⟨0, ⟨0, 0, 0, 0⟩⟩)
    (by decide) (by decide)
  exact ⟨h.1.1, h.1.2⟩

/-- C4: when the point is inside the container's computed bounds,
`HandleMouseDown` returns true, and the dispatch reaches exactly those
children all of whose later-added siblings decline the event (so the
first child, in reverse insertion order, that returns true stops
dispatch to the earlier-added ones), and the invocation order is
strictly decreasing in insertion index (most recently added first). -/
theorem C4_reverse_dispatch (bounds : Rect) (hs : List (Point → Bool)) (p : Point)
    (h : pointInRect p bounds = true) :
    (fcHandleMouseDown bounds hs p).1 = true ∧
    (∀ j, j ∈ (fcHandleMouseDown bounds hs p).2 ↔
      (j < hs.length ∧ ∀ k, j < k → k < hs.length → childAt hs p k = false)) ∧
    ((fcHandleMouseDown bounds hs p).2).Pairwise (fun a b => b < a) := by
  refine ⟨?_, ?_, ?_⟩
  · simp [fcHandleMouseDown, h]
  · intro j
    simp only [fcHandleMouseDown, h, if_true]
    exact loopDown_mem_iff hs p hs.length le_rfl j
  · simp only [fcHandleMouseDown, h, if_true]
    exact loopDown_pairwise hs p hs.length

/-- C4 witness: the dispatch characterisation evaluated on a concrete
container at (0,0)-(10,10) with three children, of which the middle one
(index 1) handles the event: children 2 and 1 are invoked, child 0 is
not. -/
theorem C4_reverse_dispatch_witness :
    (fcHandleMouseDown fcC4bounds hsC4 ⟨5, 5⟩).1 = true ∧
    (∀ j, j ∈ (fcHandleMouseDown fcC4bounds hsC4 ⟨5, 5⟩).2 ↔
      (j < hsC4.length ∧ ∀ k, j < k → k < hsC4.length → childAt hsC4 ⟨5, 5⟩ k = false)) ∧
    ((fcHandleMouseDown fcC4bounds hsC4 ⟨5, 5⟩).2).Pairwise (fun a b => b < a) :=
  C4_reverse_dispatch fcC4bounds hsC4 ⟨5, 5⟩ (by decide)

/-- C1 (counterexample): the claim says the x offset added to the
parent's content-box x is the x of the element's local bounds as set by
`SetBounds`.  It is not: `Node.ComputedBounds` uses `d.relativePos`
(set by `SetRelativePosition`) and discards the local bounds x.  For a
child whose local bounds x is 50 but whose relative position is (0,0),
under a padding-free parent at the origin, the computed x is 0, not
0 + 50. -/
theorem C1_claim_counterexample :
    ¬ ((computedBounds exC1child (Chain.cons exC1parent Chain.root)).x
        = (computedBounds exC1parent Chain.root).x
          + exC1parent.boxModel.padding.left
          + exC1child.bounds.x
          + exC1child.boxModel.margin.left) := by
  decide

/-- C1 (amended): for an element with position type relative or
absolute whose parent is a `NodeElement`, the computed x is the parent's
content-box x (parent's computed x plus the parent's left padding) plus
the element's relative position x (set by `SetRelativePosition`, not the
local bounds x) plus the element's own left margin; y analogous with top
padding/margin; width and height are the element's local width and
height, unchanged by margin. -/
theorem C1_amended_offset_is_relativePos (f pf : NodeFields) (pc : Chain)
    (h : f.positionType = PositionType.relative ∨ f.positionType = PositionType.absolute) :
    computedBounds f (Chain.cons pf pc) =
      { x := (computedBounds pf pc).x + pf.boxModel.padding.left
              + f.relativePos.x + f.boxModel.margin.left
        y := (computedBounds pf pc).y + pf.boxModel.padding.top
              + f.relativePos.y + f.boxModel.margin.top
        width := f.bounds.width
        height := f.bounds.height } := by
  rcases h with h | h <;> simp [computedBounds, h]

/-- C1 witness: the amended statement evaluated on a concrete child
(relative position (7,8), margins 3/4) under a concrete parent
(computed position (10,20), paddings 5/6). -/
theorem C1_amended_offset_is_relativePos_witness :
    computedBounds wC1child (Chain.cons wC1parent Chain.root) =
      { x := (computedBounds wC1parent Chain.root).x + wC1parent.boxModel.padding.left
              + wC1child.relativePos.x + wC1child.boxModel.margin.left
        y := (computedBounds wC1parent Chain.root).y + wC1parent.boxModel.padding.top
              + wC1child.relativePos.y + wC1child.boxModel.margin.top
        width := wC1child.bounds.width
        height := wC1child.bounds.height } :=
  C1_amended_offset_is_relativePos wC1child wC1parent Chain.root (Or.inl rfl)

/-- C8: `ComputedBounds` is pure: seen as a state-passing operation it
returns the element state unchanged, and a second call on that returned
state yields a bit-identical rectangle. -/
theorem C8_computedBounds_pure (s : NodeFields × Chain) :
    (computedBoundsS s).2 = s ∧
    (computedBoundsS ((computedBoundsS s).2)).1 = (computedBoundsS s).1 :=
  ⟨rfl, rfl⟩

/-- C9 (counterexample): `AddChild` then `RemoveChild` does not restore
the prior children sequence when the child already occurs in it:
`RemoveChild` deletes the FIRST identity match, so for the sequence
[1, 2] and child 1, add-then-remove yields [2, 1], not [1, 2]. -/
theorem C9_claim_counterexample :
    ¬ (baseRemoveChild (baseAddChild [1, 2] 1) 1 = [1, 2]) := by
  decide

/-- C9 (amended): if the child does not already occur in the children
sequence, `AddChild(p,c)` then `RemoveChild(p,c)` restores
`p.Children()` to the prior sequence. -/
theorem C9_amended_add_remove_roundtrip (s : List Nat) (c : Nat) (h : c ∉ s) :
    baseRemoveChild (baseAddChild s c) c = s := by
  induction s with
  | nil => simp [baseAddChild, baseRemoveChild]
  | cons x xs ih =>
      have hxc : x ≠ c := by
        rintro rfl
        exact h (List.mem_cons_self x xs)
      have hcs : c ∉ xs := fun hm => h (List.mem_cons_of_mem _ hm)
      have htail := ih hcs
      simp only [baseAddChild, List.cons_append, baseRemoveChild, if_neg hxc] at *
      exact congrArg (List.cons x) htail

/-- C9 witness: the amended round trip on the sequence [5, 7] and the
fresh child 9. -/
theorem C9_amended_add_remove_roundtrip_witness :
    baseRemoveChild (baseAddChild [5, 7] 9) 9 = [5, 7] :=
  C9_amended_add_remove_roundtrip [5, 7] 9 (by decide)

/-- C10: `HandleMouseDown` on a checkbox toggles the checked state
immediately on the down event, notifies the registered `checkedChanged`
handler with the new value, and returns true when the point is inside
the computed bounds; outside them the state is unchanged and the result
is false. -/
theorem C10_checkbox_mousedown (c : CheckboxState) (p : Point) :
    (pointInRect p (computedBounds c.fields c.chain) = true →
      (checkboxHandleMouseDown c p).1 = true ∧
      (checkboxHandleMouseDown c p).2.checked = !c.checked ∧
      (c.hasHandler = true →
        (checkboxHandleMouseDown c p).2.notified = c.notified ++ [!c.checked]) ∧
      (c.hasHandler = false →
        (checkboxHandleMouseDown c p).2.notified = c.notified)) ∧
    (pointInRect p (computedBounds c.fields c.chain) = false →
      (checkboxHandleMouseDown c p).1 = false ∧
      (checkboxHandleMouseDown c p).2 = c) := by
  constructor
  · intro h
    cases hh : c.hasHandler <;> simp [checkboxHandleMouseDown, h, hh]
  · intro h
    simp [checkboxHandleMouseDown, h]

/-- C10 witness: the down-branch of the theorem evaluated on a concrete
checkbox at (0,0)-(20,20) clicked at (5,5). -/
theorem C10_checkbox_mousedown_witness :
    (checkboxHandleMouseDown cb0 ⟨5, 5⟩).1 = true ∧
    (checkboxHandleMouseDown cb0 ⟨5, 5⟩).2.checked = !cb0.checked ∧
    (checkboxHandleMouseDown cb0 ⟨5, 5⟩).2.notified = cb0.notified ++ [!cb0.checked] := by
  have h := (C10_checkbox_mousedown cb0 ⟨5, 5⟩).1 (by decide)
  exact ⟨h.1, h.2.1, h.2.2.1 rfl⟩

/-- C7: `Update` replaces the value with the transform of the old value,
leaves the watcher list unchanged, and notifies exactly the registered
watchers, once each, in subscription order, each with the new value and
with no equality check; three sequential `Update(v => v+1)` calls on a
cell initialised to 0 with one watcher produce exactly three
notification passes observed as 1, 2, 3, in order. -/
theorem C7_state_update_notifies (s : StateCell) (t : Int → Int) :
    ((stateUpdate s t).1.value = t s.value ∧
     (stateUpdate s t).1.watchers = s.watchers ∧
     (stateUpdate s t).2.map Prod.fst = s.watchers ∧
     (∀ e ∈ (stateUpdate s t).2, e.2 = t s.value)) ∧
    ((stateUpdate cell0 (fun v => v + 1)).2 = [(0, 1)] ∧
     (stateUpdate cell1 (fun v => v + 1)).2 = [(0, 2)] ∧
     (stateUpdate cell2 (fun v => v + 1)).2 = [(0, 3)]) := by
  refine ⟨⟨rfl, rfl, ?_, ?_⟩, by decide, by decide, by decide⟩
  · simp [stateUpdate, Function.comp_def]
  · intro e he
    simp [stateUpdate] at he
    obtain ⟨w, -, rfl⟩ := he
    rfl

/-- C7 witness: the universal part of the theorem evaluated on the
concrete cell with two watchers and the transform v => v * 2. -/
theorem C7_state_update_notifies_witness :
    (stateUpdate { value := 3, watchers := [4, 9] } (fun v => v * 2)).1.value = 6 ∧
    (stateUpdate { value := 3, watchers := [4, 9] } (fun v => v * 2)).2.map Prod.fst
      = [4, 9] := by
  have h := (C7_state_update_notifies { value := 3, watchers := [4, 9] } (fun v => v * 2)).1
  exact ⟨h.1, h.2.2.1⟩

/-- C6 (counterexample): the claim quantifies over every element that
tracks hover state, but `BaseElement.HandleMouseMove` returns only the
new `mouseOver` flag: for a childless base element hovered by a previous
move, a move that leaves the bounds returns false, not true. -/
theorem C6_claim_counterexample :
    base1.mouseOver = true ∧ (baseHandleMouseMove base1 ⟨100, 100⟩).1 = false :=
  ⟨rfl, rfl⟩

/-- C6 (amended): for a childless `Button`, `HandleMouseMove` returns
true exactly when the button is hovered after the call or was hovered
immediately before it; in particular on the concrete hover button,
moving into its bounds returns true, a further move inside returns true,
the move that leaves the bounds returns true one more time, and a
further outside move returns false. -/
theorem C6_amended_button_hover_return (b : ButtonState) (p : Point)
    (h : b.children = []) :
    ((buttonHandleMouseMove b p).1
      = ((buttonHandleMouseMove b p).2.hovered || b.hovered)) ∧
    (buttonHandleMouseMove hoverBtn ⟨5, 5⟩).1 = true ∧
    (buttonHandleMouseMove hb1 ⟨6, 6⟩).1 = true ∧
    (buttonHandleMouseMove hb2 ⟨100, 100⟩).1 = true ∧
    (buttonHandleMouseMove hb3 ⟨200, 200⟩).1 = false := by
  refine ⟨?_, rfl, rfl, rfl, rfl⟩
  cases hov : pointInRect p (computedBounds b.fields b.chain) <;>
    cases hb : b.hovered <;>
      simp [buttonHandleMouseMove, h, anyChildHandles, loopDown, hov, hb]

/-- C6 witness: the amended equation evaluated along the concrete
enter / stay / leave / stay-out trajectory of the hover button. -/
theorem C6_amended_button_hover_return_witness :
    ((buttonHandleMouseMove hoverBtn ⟨5, 5⟩).1
      = ((buttonHandleMouseMove hoverBtn ⟨5, 5⟩).2.hovered || hoverBtn.hovered)) ∧
    (buttonHandleMouseMove hoverBtn ⟨5, 5⟩).1 = true ∧
    (buttonHandleMouseMove hb1 ⟨6, 6⟩).1 = true ∧
    (buttonHandleMouseMove hb2 ⟨100, 100⟩).1 = true ∧
    (buttonHandleMouseMove hb3 ⟨200, 200⟩).1 = false :=
  C6_amended_button_hover_return hoverBtn ⟨5, 5⟩ rfl

/-- C3: for the button occupying (100,100)-(200,150):
`HandleMouseDown(150,125)` returns true and sets the pressed flag;
a following `HandleMouseUp(150,125)` returns true, invokes the click
callback exactly once and clears the pressed flag; whereas releasing at
(10,10) instead invokes no callback while still clearing the pressed
flag. -/
theorem C3_button_press_release :
    (buttonHandleMouseDown btn0 ⟨150, 125⟩).1 = true ∧
    btn1.pressed = true ∧
    (buttonHandleMouseUp btn1 ⟨150, 125⟩).1 = true ∧
    (buttonHandleMouseUp btn1 ⟨150, 125⟩).2.clickCount = 1 ∧
    (buttonHandleMouseUp btn1 ⟨150, 125⟩).2.pressed = false ∧
    (buttonHandleMouseUp btn1 ⟨10, 10⟩).2.clickCount = 0 ∧
    (buttonHandleMouseUp btn1 ⟨10, 10⟩).2.pressed = false := by
  refine ⟨rfl, rfl, rfl, rfl, rfl, rfl, rfl⟩

end Finch
